import Mathlib

set_option maxRecDepth 8000

/-!
Shallow embedding of the text2audio crate.

Sources embedded here: src/error.rs, src/config.rs, src/client.rs,
src/ai_splitter.rs, src/audio_merger.rs and src/lib.rs.  Remote network
services (chat completion, speech synthesis) and the hound WAV library are
external collaborators; they are modelled as explicit function parameters
(an environment of oracles), and every local computation of the crate is
translated directly from the Rust source.  Machine integers that can
overflow are modelled with an explicit modulus; `u32` exponentiation uses
release-mode wrapping semantics.
-/

/-- Audio byte buffers (Rust `Vec<u8>`); byte values are irrelevant to the
claims, so bytes are plain naturals. -/
abbrev Bytes := List Nat

/-- Error enum from src/error.rs.  Library-error payloads are carried as
their display strings. -/
inductive Error where
  | AiApi : String → Error
  | TtsApi : String → Error
  | Audio : String → Error
  | Io : String → Error
  | Hound : String → Error
  | Http : String → Error
  | Config : String → Error
  | EmptyInput : Error
  deriving DecidableEq, Repr

/-- Display implementation generated by thiserror in src/error.rs. -/
def Error.display : Error → String
  | .AiApi m => "AI API error: " ++ m
  | .TtsApi m => "TTS API error: " ++ m
  | .Audio m => "Audio processing error: " ++ m
  | .Io m => "IO error: " ++ m
  | .Hound m => "Audio library error: " ++ m
  | .Http m => "HTTP error: " ++ m
  | .Config m => "Invalid configuration: " ++ m
  | .EmptyInput => "Input text is empty"

/-- IEEE-754 single-precision values as far as `f32::clamp` can observe
them: NaN, the two infinities, and exact finite values.  Clamping performs
only comparisons (no rounding), so finite values are represented exactly
as rationals. -/
inductive F32 where
  | nan : F32
  | negInf : F32
  | posInf : F32
  | finite : ℚ → F32
  deriving DecidableEq, Repr

/-- IEEE-754 strict less-than: any comparison with NaN is false. -/
def F32.lt : F32 → F32 → Bool
  | .nan, _ => false
  | _, .nan => false
  | .negInf, .negInf => false
  | .negInf, _ => true
  | _, .negInf => false
  | .posInf, _ => false
  | .finite _, .posInf => true
  | .finite a, .finite b => decide (a < b)

/-- Rust `f32::clamp(self, min, max)`: `if self < min { min } else if
self > max { max } else { self }`.  In particular a NaN input is returned
unchanged. -/
def F32.clamp (x lo hi : F32) : F32 :=
  if F32.lt x lo then lo else if F32.lt hi x then hi else x

/-- Rust `Ord::clamp` on `usize` (always within `u64` range here, so plain
naturals). -/
def natClamp (x lo hi : Nat) : Nat :=
  if x < lo then lo else if hi < x then hi else x

/-- Model enum from src/client.rs. -/
inductive Model where
  | GLM4_7 : Model
  | GLM4_6 : Model
  | GLM4_5 : Model
  | GLM4_5Flash : Model
  | GLM4_5Air : Model
  deriving DecidableEq, Repr

/-- Model::as_str from src/client.rs. -/
def Model.as_str : Model → String
  | .GLM4_7 => "glm-4.7"
  | .GLM4_6 => "glm-4.6"
  | .GLM4_5 => "glm-4.5"
  | .GLM4_5Flash => "glm-4.5-flash"
  | .GLM4_5Air => "glm-4.5-air"

/-- Voice enum from src/config.rs. -/
inductive Voice where
  | Tongtong : Voice
  | Chuichui : Voice
  | Xiaochen : Voice
  | Jam : Voice
  | Kazi : Voice
  | Douji : Voice
  | Luodo : Voice
  deriving DecidableEq, Repr

/-- Message roles used by the chat request (zai-rs TextMessage). -/
inductive Role where
  | system : Role
  | user : Role
  deriving DecidableEq, Repr

/-- A chat message: role plus content (zai-rs TextMessage). -/
structure TextMessage where
  role : Role
  content : String
  deriving DecidableEq, Repr

/-- TextMessage::system. -/
def TextMessage.system (s : String) : TextMessage := ⟨Role.system, s⟩

/-- TextMessage::user. -/
def TextMessage.user (s : String) : TextMessage := ⟨Role.user, s⟩

/-- Client struct from src/client.rs. -/
structure Client where
  api_key : String
  model : Model
  thinking : Bool
  coding_plan : Bool
  deriving DecidableEq, Repr

/-- Client::new. -/
def Client.new (api_key : String) : Client :=
  ⟨api_key, Model.GLM4_5Flash, false, false⟩

/-- Client::with_model. -/
def Client.with_model (c : Client) (m : Model) : Client := { c with model := m }

/-- Client::with_thinking. -/
def Client.with_thinking (c : Client) (b : Bool) : Client := { c with thinking := b }

/-- Client::with_coding_plan. -/
def Client.with_coding_plan (c : Client) (b : Bool) : Client := { c with coding_plan := b }

/-- The fixed system instruction of call_chat and call_chat_with_thinking
in src/client.rs (the Rust string literal spans two lines, embedding a
newline and the following indentation). -/
def SPLIT_SYSTEM_PROMPT : String :=
  "作为全球顶级的语言学家，你取得了全球所有语种博士学位，\n            并且每种语言都拥有100年的使用经验。根据提供的文本，按照语义学进行分段。"

/-- The observable content of one chat-completion request: the model it is
addressed to, the ordered message list, and the two request options. -/
structure ChatRequest where
  model : Model
  messages : List TextMessage
  coding_plan : Bool
  thinking_enabled : Bool
  deriving DecidableEq, Repr

/-- Client::call_chat from src/client.rs: fixed system instruction plus the
prompt as a user message; no thinking augmentation. -/
def call_chat_request (c : Client) (model : Model) (prompt : String) : ChatRequest :=
  { model := model
    messages := [TextMessage.system SPLIT_SYSTEM_PROMPT, TextMessage.user prompt]
    coding_plan := c.coding_plan
    thinking_enabled := false }

/-- Client::call_chat_with_thinking from src/client.rs: fixed system
instruction, then the prompt added via TextMessage::system, and
ThinkingType::Enabled set on the request. -/
def call_chat_with_thinking_request (c : Client) (model : Model) (prompt : String) : ChatRequest :=
  { model := model
    messages := [TextMessage.system SPLIT_SYSTEM_PROMPT, TextMessage.system prompt]
    coding_plan := c.coding_plan
    thinking_enabled := true }

/-- The request built by Client::chat_completion: the per-model dispatch of
src/client.rs lines 100-124.  The thinking branch exists only for GLM4_7,
GLM4_6 and GLM4_5; GLM4_5Flash and GLM4_5Air always use call_chat. -/
def chat_completion_request (c : Client) (prompt : String) : ChatRequest :=
  match c.model with
  | .GLM4_7 =>
    if c.thinking then call_chat_with_thinking_request c .GLM4_7 prompt
    else call_chat_request c .GLM4_7 prompt
  | .GLM4_6 =>
    if c.thinking then call_chat_with_thinking_request c .GLM4_6 prompt
    else call_chat_request c .GLM4_6 prompt
  | .GLM4_5 =>
    if c.thinking then call_chat_with_thinking_request c .GLM4_5 prompt
    else call_chat_request c .GLM4_5 prompt
  | .GLM4_5Flash => call_chat_request c .GLM4_5Flash prompt
  | .GLM4_5Air => call_chat_request c .GLM4_5Air prompt

/-- Text2Audio struct from src/lib.rs.  retry_delay is a Duration,
tracked in its base unit (milliseconds) as a natural. -/
structure Text2Audio where
  api_key : String
  model : Model
  voice : Voice
  speed : F32
  volume : F32
  max_segment_length : Nat
  enable_parallel : Bool
  max_parallel : Nat
  max_retries : Nat
  retry_delay : Nat
  enable_thinking : Bool
  coding_plan : Bool
  deriving Repr

/-- Text2Audio::new with its default settings. -/
def Text2Audio.new (api_key : String) : Text2Audio :=
  { api_key := api_key
    model := Model.GLM4_5Flash
    voice := Voice.Tongtong
    speed := F32.finite 1
    volume := F32.finite 1
    max_segment_length := 500
    enable_parallel := false
    max_parallel := 3
    max_retries := 3
    retry_delay := 100
    enable_thinking := false
    coding_plan := false }

/-- Text2Audio::with_model. -/
def Text2Audio.with_model (c : Text2Audio) (m : Model) : Text2Audio := { c with model := m }

/-- Text2Audio::with_voice. -/
def Text2Audio.with_voice (c : Text2Audio) (v : Voice) : Text2Audio := { c with voice := v }

/-- Text2Audio::with_speed: `speed.clamp(0.5, 2.0)`. -/
def Text2Audio.with_speed (c : Text2Audio) (speed : F32) : Text2Audio :=
  { c with speed := speed.clamp (F32.finite (1/2)) (F32.finite 2) }

/-- Text2Audio::with_volume: `volume.clamp(0.0, 10.0)`. -/
def Text2Audio.with_volume (c : Text2Audio) (volume : F32) : Text2Audio :=
  { c with volume := volume.clamp (F32.finite 0) (F32.finite 10) }

/-- Text2Audio::with_max_segment_length: `max_length.clamp(100, 1024)`. -/
def Text2Audio.with_max_segment_length (c : Text2Audio) (max_length : Nat) : Text2Audio :=
  { c with max_segment_length := natClamp max_length 100 1024 }

/-- Text2Audio::with_parallel: enables parallel mode and clamps
`max_parallel` to 1..10. -/
def Text2Audio.with_parallel (c : Text2Audio) (max_parallel : Nat) : Text2Audio :=
  { c with enable_parallel := true, max_parallel := natClamp max_parallel 1 10 }

/-- Text2Audio::with_thinking. -/
def Text2Audio.with_thinking (c : Text2Audio) (enable : Bool) : Text2Audio :=
  { c with enable_thinking := enable }

/-- Text2Audio::with_coding_plan. -/
def Text2Audio.with_coding_plan (c : Text2Audio) (enable : Bool) : Text2Audio :=
  { c with coding_plan := enable }

/-- Text2Audio::with_retry_config. -/
def Text2Audio.with_retry_config (c : Text2Audio) (max_retries retry_delay : Nat) : Text2Audio :=
  { c with max_retries := max_retries, retry_delay := retry_delay }

/-- SEGMENT_DELIMITER from src/ai_splitter.rs. -/
def SEGMENT_DELIMITER : String := "|||"

/-- Scanner for Rust `str::split(pat)` with a non-empty literal pattern:
non-overlapping occurrences are matched left to right.  The fuel argument
(the remaining character count at the start) makes the recursion
structural; each step consumes at least one character and one unit of
fuel, so the fuel never runs out on the inputs `rustSplit` passes. -/
def splitGo (delim : List Char) : Nat → List Char → List Char → List (List Char)
  | _, [], acc => [acc.reverse]
  | 0, s, acc => [acc.reverse ++ s]
  | fuel + 1, c :: rest, acc =>
    if delim.isPrefixOf (c :: rest) then
      acc.reverse :: splitGo delim fuel ((c :: rest).drop delim.length) []
    else
      splitGo delim fuel rest (c :: acc)

/-- Rust `str::split` on a literal delimiter. -/
def rustSplit (delim s : String) : List String :=
  (splitGo delim.data s.data.length s.data []).map (fun l => String.mk l)

/-- Rust `str::trim`: strip whitespace from both ends.  (Rust uses the
Unicode White_Space property; `Char.isWhitespace` covers the ASCII part,
which coincides on every input these claims touch.) -/
def rustTrim (s : String) : String :=
  String.mk (((s.data.dropWhile Char.isWhitespace).reverse.dropWhile
    Char.isWhitespace).reverse)

/-- AiSplitter::parse_segments from src/ai_splitter.rs: split the raw
response on the delimiter, trim each piece, drop empty pieces; if nothing
remains, fall back to the raw response itself as the single segment. -/
def parse_segments (raw_response : String) : Except Error (List String) :=
  if (((rustSplit SEGMENT_DELIMITER raw_response).map rustTrim).filter
      (fun s => !s.isEmpty)).isEmpty then
    Except.ok [raw_response]
  else
    Except.ok (((rustSplit SEGMENT_DELIMITER raw_response).map rustTrim).filter
      (fun s => !s.isEmpty))

/-- AiSplitter::build_prompt from src/ai_splitter.rs (the Rust format
string uses line continuations, so it is one continuous string). -/
def build_prompt (max_length : Nat) (text : String) : String :=
  "请将以下文本分割成多个段落，每个段落的字符数不超过 " ++ toString max_length ++
  " 字符。分割时要保持语义完整性，优先按照句子的自然边界（如句号、问号、感叹号）进行分割。" ++
  "分割后，请按顺序输出每个段落，每个段落用特殊标记 ||| 分隔。" ++
  "不要添加任何解释性文字，只输出分割后的段落。\n\n待分割的文本：\n" ++ text

/-- AiSplitter::split from src/ai_splitter.rs, with the remote chat
completion passed as an oracle.  Returns the result paired with the number
of chat-completion calls performed. -/
def AiSplitter.split (chat : String → Except Error String) (max_length : Nat)
    (text : String) : Except Error (List String) × Nat :=
  if text.length = 0 then (Except.ok [], 0)
  else if text.length ≤ max_length then (Except.ok [text], 0)
  else
    match chat (build_prompt max_length text) with
    | .error e => (.error e, 1)
    | .ok raw_response => (parse_segments raw_response, 1)

/-- WAV format descriptor (hound::WavSpec). -/
structure WavSpec where
  channels : Nat
  sample_rate : Nat
  bits_per_sample : Nat
  deriving DecidableEq, Repr

/-- A parsed WAV container: its format descriptor and its i16 sample
stream (hound reader view of a byte buffer). -/
structure Wav where
  spec : WavSpec
  samples : List Int
  deriving DecidableEq, Repr

/-- AudioMerger::extract_wav_spec: parse the buffer (via the external
hound reader, passed as an oracle) and return its spec; a parse failure is
wrapped without any segment index. -/
def extract_wav_spec (parse : Bytes → Except String Wav) (audio_bytes : Bytes) :
    Except Error WavSpec :=
  match parse audio_bytes with
  | .error e => .error (.Audio ("Invalid WAV format: " ++ e))
  | .ok w => .ok w.spec

/-- AudioMerger::write_segment: parse one buffer and append its samples to
the writer; a parse failure is tagged with the segment index. -/
def write_segment (parse : Bytes → Except String Wav) (acc : List Int)
    (segment : Bytes) (idx : Nat) : Except Error (List Int) :=
  match parse segment with
  | .error e => .error (.Audio ("Segment " ++ toString idx ++ " invalid WAV: " ++ e))
  | .ok w => .ok (acc ++ w.samples)

/-- The enumerated writer loop of AudioMerger::merge. -/
def mergeGo (parse : Bytes → Except String Wav) :
    List Bytes → Nat → List Int → Except Error (List Int)
  | [], _, acc => .ok acc
  | seg :: rest, idx, acc =>
    match write_segment parse acc seg idx with
    | .error e => .error e
    | .ok acc2 => mergeGo parse rest (idx + 1) acc2

/-- AudioMerger::merge from src/audio_merger.rs.  The written output file
is modelled as the pair of the spec the writer was created with and the
final concatenated sample stream. -/
def merge (parse : Bytes → Except String Wav) (audio_segments : List Bytes) :
    Except Error (WavSpec × List Int) :=
  if audio_segments.isEmpty then
    .error (.Audio "No audio segments to merge")
  else
    match extract_wav_spec parse (audio_segments.headD []) with
    | .error e => .error e
    | .ok spec =>
      match mergeGo parse audio_segments 0 [] with
      | .error e => .error e
      | .ok samples => .ok (spec, samples)

/-- AudioMerger::save_single from src/audio_merger.rs. -/
def save_single (parse : Bytes → Except String Wav) (audio_bytes : Bytes) :
    Except Error (WavSpec × List Int) :=
  if audio_bytes.isEmpty then
    .error (.Audio "Empty audio data")
  else
    match parse audio_bytes with
    | .error e => .error (.Audio ("Invalid WAV format: " ++ e))
    | .ok w => .ok (w.spec, w.samples)

/-- `2_u32.pow(attempt)` with release-mode (wrapping) u32 semantics. -/
def pow2u32 (attempt : Nat) : Nat := 2 ^ attempt % 2 ^ 32

/-- Instrumented outcome of one retry loop: the returned value, the number
of synthesis attempts performed, and the sequence of backoff delays slept
(in the base unit of retry_delay). -/
structure RetryOut where
  result : Except Error Bytes
  attempts : Nat
  delays : List Nat
  deriving Repr

/-- The loop body of Text2Audio::text_to_audio_with_retry (src/lib.rs
lines 306-323).  The first argument of the loop state is the remaining
number of loop iterations (`max_retries - attempt`), which makes the
recursion structural; `attempt` is the loop counter of the source. -/
def retryGo (tryConvert : Nat → Except Error Bytes) (max_retries retry_delay : Nat) :
    Nat → Nat → Option Error → Nat → List Nat → RetryOut
  | 0, _, last_error, n, ds =>
    ⟨.error (last_error.getD (Error.TtsApi "Unknown error")), n, ds⟩
  | rem + 1, attempt, _, n, ds =>
    match tryConvert attempt with
    | .ok audio => ⟨.ok audio, n + 1, ds⟩
    | .error e =>
      retryGo tryConvert max_retries retry_delay rem (attempt + 1) (some e) (n + 1)
        (if attempt < max_retries - 1 then ds ++ [retry_delay * pow2u32 attempt] else ds)

/-- Text2Audio::text_to_audio_with_retry, instrumented.  The oracle
`tryConvert` gives the outcome of the attempt-th call of try_convert. -/
def text_to_audio_with_retry (tryConvert : Nat → Except Error Bytes)
    (max_retries retry_delay : Nat) : RetryOut :=
  retryGo tryConvert max_retries retry_delay max_retries 0 none 0 []

/-- The inline retry loop of one dispatched unit in
Text2Audio::collect_audio_parallel (src/lib.rs lines 372-390).  It differs
from retryGo in its error bookkeeping: each failure is stored wrapped as
`TtsApi ("Retry {attempt}: {e}")` and the exhausted-with-no-error fallback
message is "All retry attempts failed". -/
def parUnitGo (synth : Nat → Except Error Bytes) (max_retries retry_delay : Nat) :
    Nat → Nat → Option Error → Nat → List Nat → RetryOut
  | 0, _, last_error, n, ds =>
    ⟨.error (last_error.getD (Error.TtsApi "All retry attempts failed")), n, ds⟩
  | rem + 1, attempt, _, n, ds =>
    match synth attempt with
    | .ok bytes => ⟨.ok bytes, n + 1, ds⟩
    | .error e =>
      parUnitGo synth max_retries retry_delay rem (attempt + 1)
        (some (Error.TtsApi ("Retry " ++ toString attempt ++ ": " ++ e.display)))
        (n + 1)
        (if attempt < max_retries - 1 then ds ++ [retry_delay * pow2u32 attempt] else ds)

/-- One dispatched unit of collect_audio_parallel, run to completion. -/
def parallel_unit (synth : Nat → Except Error Bytes) (max_retries retry_delay : Nat) :
    RetryOut :=
  parUnitGo synth max_retries retry_delay max_retries 0 none 0 []

/-- The final collection loop of collect_audio_parallel: push each result,
aborting at the first error (`audio_segments.push(result?)`). -/
def collectSeq : List (Except Error Bytes) → Except Error (List Bytes)
  | [] => .ok []
  | r :: rs =>
    match r with
    | .error e => .error e
    | .ok b =>
      match collectSeq rs with
      | .error e => .error e
      | .ok bs => .ok (b :: bs)

/-- Text2Audio::collect_audio_sequential, instrumented with the total
number of synthesis attempts.  The oracle gives the outcome of each
attempt for each segment text. -/
def collect_audio_sequential (synth : String → Nat → Except Error Bytes)
    (max_retries retry_delay : Nat) :
    List String → Except Error (List Bytes) × Nat
  | [] => (.ok [], 0)
  | s :: rest =>
    match text_to_audio_with_retry (synth s) max_retries retry_delay with
    | ⟨.error e, n, _⟩ => (.error e, n)
    | ⟨.ok b, n, _⟩ =>
      match collect_audio_sequential synth max_retries retry_delay rest with
      | (.error e, m) => (.error e, n + m)
      | (.ok bs, m) => (.ok (b :: bs), n + m)

/-- Text2Audio::collect_audio_parallel (src/lib.rs lines 350-403).  The
segments are dispatched into `buffer_unordered(max_parallel)`, whose output
stream yields each unit result in the order the units complete; `collect`
therefore produces the unit results in completion order, and the final loop
pushes them in that same order.  `order` is the completion order of the
concurrent units, i.e. the index list such that the t-th element to
complete is the unit of segment `order[t]`; which orders the bounded pool
can realize is described by `feasibleCompletion` below. -/
def collect_audio_parallel (synth : String → Nat → Except Error Bytes)
    (max_retries retry_delay : Nat) (segments : List String) (order : List Nat) :
    Except Error (List Bytes) × Nat :=
  (collectSeq (order.map (fun i =>
      (parallel_unit (synth (segments.getD i "")) max_retries retry_delay).result)),
   (order.map (fun i =>
      (parallel_unit (synth (segments.getD i "")) max_retries retry_delay).attempts)).sum)

/-- The completion orders a `buffer_unordered(k)` pool over `n` input
futures can realize: a permutation of the indices below `n` in which the
t-th future to complete was already started, i.e. its index is below
`k + t` (the first `k` futures start immediately and each completion
starts one more). -/
def feasibleCompletion (k n : Nat) (order : List Nat) : Prop :=
  order.length = n ∧ order.Nodup ∧ (∀ i ∈ order, i < n) ∧
  ∀ t, t < order.length → order.getD t 0 < k + t

/-- The external collaborators of one conversion: chat completion and
speech synthesis (remote services; synthesis is indexed by the attempt
number so that per-call outcomes can differ) and the hound WAV parser. -/
structure Env where
  chat : String → Except Error String
  synth : String → Nat → Except Error Bytes
  parse : Bytes → Except String Wav

/-- Instrumented outcome of Text2Audio::convert: the result (the written
output file on success), the number of chat-completion calls and the
number of synthesis calls. -/
structure ConvertOut where
  result : Except Error (WavSpec × List Int)
  chat_calls : Nat
  synth_calls : Nat
  deriving Repr

/-- Text2Audio::convert_direct. -/
def convert_direct (cfg : Text2Audio) (env : Env) (text : String) : ConvertOut :=
  match text_to_audio_with_retry (env.synth text) cfg.max_retries cfg.retry_delay with
  | ⟨.error e, n, _⟩ => ⟨.error e, 0, n⟩
  | ⟨.ok audio_bytes, n, _⟩ => ⟨save_single env.parse audio_bytes, 0, n⟩

/-- The merge step of convert_segmented (after audio collection). -/
def segmentedMerge (env : Env) (chat_calls : Nat) :
    Except Error (List Bytes) × Nat → ConvertOut
  | (.error e, synth_calls) => ⟨.error e, chat_calls, synth_calls⟩
  | (.ok audio_segments, synth_calls) =>
    ⟨merge env.parse audio_segments, chat_calls, synth_calls⟩

/-- The collection step of convert_segmented (after splitting). -/
def segmentedCollect (cfg : Text2Audio) (env : Env) (order : List Nat) :
    Except Error (List String) × Nat → ConvertOut
  | (.error e, chat_calls) => ⟨.error e, chat_calls, 0⟩
  | (.ok segments, chat_calls) =>
    if segments.isEmpty then ⟨.error .EmptyInput, chat_calls, 0⟩
    else
      segmentedMerge env chat_calls
        (if cfg.enable_parallel then
          collect_audio_parallel env.synth cfg.max_retries cfg.retry_delay segments order
        else
          collect_audio_sequential env.synth cfg.max_retries cfg.retry_delay segments)

/-- Text2Audio::convert_segmented. -/
def convert_segmented (cfg : Text2Audio) (env : Env) (order : List Nat)
    (text : String) : ConvertOut :=
  segmentedCollect cfg env order (AiSplitter.split env.chat cfg.max_segment_length text)

/-- Text2Audio::convert (src/lib.rs lines 266-279): trim, reject empty
input, then choose the direct or the segmented path by the Unicode scalar
count of the trimmed text. -/
def convert (cfg : Text2Audio) (env : Env) (order : List Nat) (text : String) : ConvertOut :=
  if (rustTrim text).isEmpty then ⟨.error Error.EmptyInput, 0, 0⟩
  else if (rustTrim text).length ≤ cfg.max_segment_length then
    convert_direct cfg env (rustTrim text)
  else
    convert_segmented cfg env order (rustTrim text)

/-- The spec-side description of the Segmenter parse step, written from
the words of the specification: split on the delimiter, trim whitespace
from each piece, discard empty pieces. -/
def specSplitTrimFilter (raw : String) : List String :=
  ((rustSplit "|||" raw).map rustTrim).filter (fun s => !s.isEmpty)

/-- Declared range of the speed setting (0.5 to 2.0). -/
def speedInRange (x : F32) : Prop :=
  ∃ q : ℚ, x = F32.finite q ∧ 1/2 ≤ q ∧ q ≤ 2

/-- Declared range of the volume setting (0.0 to 10.0). -/
def volumeInRange (x : F32) : Prop :=
  ∃ q : ℚ, x = F32.finite q ∧ 0 ≤ q ∧ q ≤ 10

/-- Synthesis oracle that answers instantly and distinctly per segment
text, used to exhibit the completion-order behaviour of the parallel
path. -/
def c1Synth : String → Nat → Except Error Bytes := fun s _ =>
  if s = "a" then Except.ok [10] else Except.ok [20]

/-- Synthesis stub that fails twice, then succeeds. -/
def c2Stub : Nat → Except Error Bytes := fun i =>
  if i < 2 then Except.error (Error.TtsApi "boom") else Except.ok [7]

/-- Synthesis stub that fails 33 times, then succeeds: its 33rd backoff
exponent is 32, where the u32 power wraps. -/
def c2OverflowStub : Nat → Except Error Bytes := fun i =>
  if i < 33 then Except.error (Error.TtsApi "boom") else Except.ok [7]

/-- Environment whose synthesis always fails with the same error. -/
def c4Env : Env :=
  ⟨fun _ => Except.error (Error.AiApi "no"),
   fun _ _ => Except.error (Error.TtsApi "boom"),
   fun _ => Except.error "no"⟩

/-- WAV oracle for which only the buffer `[9]` is unparseable. -/
def c6Parse : Bytes → Except String Wav := fun b =>
  if b = [9] then Except.error "flat" else Except.ok ⟨⟨1, 44100, 16⟩, [3]⟩

/-- Environment in which every remote call fails, used to observe that no
call happens at all. -/
def c7Env : Env :=
  ⟨fun _ => Except.error (Error.AiApi "no"),
   fun _ _ => Except.error (Error.TtsApi "no"),
   fun _ => Except.error "no"⟩

/-- Below 32 the u32 power does not wrap. -/
theorem pow2u32_eq (a : Nat) (h : a < 32) : pow2u32 a = 2 ^ a :=
  Nat.mod_eq_of_lt (Nat.pow_lt_pow_right (by norm_num) h)

/-- Running the retry loop from loop counter `a`: if the next `k` attempts
fail and attempt `a + k` succeeds (all within the loop bound), the loop
returns that success, having performed `k + 1` further attempts and slept
one backoff per failure. -/
theorem retryGo_ok (tryC : Nat → Except Error Bytes) (maxR delay : Nat) :
    ∀ (k rem a : Nat) (last : Option Error) (n : Nat) (ds : List Nat) (b : Bytes),
      k < rem → a + k < maxR →
      (∀ j, j < k → ∃ e, tryC (a + j) = Except.error e) →
      tryC (a + k) = Except.ok b →
      retryGo tryC maxR delay rem a last n ds =
        ⟨Except.ok b, n + k + 1, ds ++ (List.range' a k).map (fun i => delay * pow2u32 i)⟩ := by
  intro k
  induction k with
  | zero =>
    intro rem a last n ds b hrem hmax hfail hsucc
    rcases rem with _ | r
    · omega
    · rw [Nat.add_zero] at hsucc
      simp [retryGo, hsucc]
  | succ k ih =>
    intro rem a last n ds b hrem hmax hfail hsucc
    rcases rem with _ | r
    · omega
    · obtain ⟨e, he⟩ := hfail 0 (by omega)
      rw [Nat.add_zero] at he
      have ha : a < maxR - 1 := by omega
      have step :
          retryGo tryC maxR delay (r + 1) a last n ds =
            retryGo tryC maxR delay r (a + 1) (some e) (n + 1)
              (ds ++ [delay * pow2u32 a]) := by
        simp [retryGo, he, if_pos ha]
      rw [step, ih r (a + 1) (some e) (n + 1) (ds ++ [delay * pow2u32 a]) b (by omega)
        (by omega)
        (fun j hj => by
          obtain ⟨e2, he2⟩ := hfail (j + 1) (by omega)
          exact ⟨e2, by rw [show a + 1 + j = a + (j + 1) by omega]; exact he2⟩)
        (by rw [show a + 1 + k = a + (k + 1) by omega]; exact hsucc)]
      congr 1
      · omega
      · rw [List.range'_succ]
        simp

/-- Running the inline retry loop of a parallel unit from loop counter
`a`: same success behaviour as retryGo_ok (the two loops differ only in
how a pending failure is recorded, which a successful attempt never
reads). -/
theorem parUnitGo_ok (synth : Nat → Except Error Bytes) (maxR delay : Nat) :
    ∀ (k rem a : Nat) (last : Option Error) (n : Nat) (ds : List Nat) (b : Bytes),
      k < rem → a + k < maxR →
      (∀ j, j < k → ∃ e, synth (a + j) = Except.error e) →
      synth (a + k) = Except.ok b →
      parUnitGo synth maxR delay rem a last n ds =
        ⟨Except.ok b, n + k + 1, ds ++ (List.range' a k).map (fun i => delay * pow2u32 i)⟩ := by
  intro k
  induction k with
  | zero =>
    intro rem a last n ds b hrem hmax hfail hsucc
    rcases rem with _ | r
    · omega
    · rw [Nat.add_zero] at hsucc
      simp [parUnitGo, hsucc]
  | succ k ih =>
    intro rem a last n ds b hrem hmax hfail hsucc
    rcases rem with _ | r
    · omega
    · obtain ⟨e, he⟩ := hfail 0 (by omega)
      rw [Nat.add_zero] at he
      have ha : a < maxR - 1 := by omega
      have step :
          parUnitGo synth maxR delay (r + 1) a last n ds =
            parUnitGo synth maxR delay r (a + 1)
              (some (Error.TtsApi ("Retry " ++ toString a ++ ": " ++ e.display))) (n + 1)
              (ds ++ [delay * pow2u32 a]) := by
        simp [parUnitGo, he, if_pos ha]
      rw [step, ih r (a + 1) _ (n + 1) (ds ++ [delay * pow2u32 a]) b (by omega)
        (by omega)
        (fun j hj => by
          obtain ⟨e2, he2⟩ := hfail (j + 1) (by omega)
          exact ⟨e2, by rw [show a + 1 + j = a + (j + 1) by omega]; exact he2⟩)
        (by rw [show a + 1 + k = a + (k + 1) by omega]; exact hsucc)]
      congr 1
      · omega
      · rw [List.range'_succ]
        simp

/-- Running the retry loop when every attempt fails: the loop performs all
its remaining iterations and ends holding the error of the last attempt it
made. -/
theorem retryGo_err (tryC : Nat → Except Error Bytes) (maxR delay : Nat) (errOf : Nat → Error)
    (hfail : ∀ i, tryC i = Except.error (errOf i)) :
    ∀ (rem a : Nat) (last : Option Error) (n : Nat) (ds : List Nat), 1 ≤ rem →
      (retryGo tryC maxR delay rem a last n ds).attempts = n + rem ∧
      (retryGo tryC maxR delay rem a last n ds).result = Except.error (errOf (a + rem - 1)) := by
  intro rem
  induction rem with
  | zero => intro a last n ds h; omega
  | succ r ih =>
    intro a last n ds _
    rcases r with _ | r2
    · simp [retryGo, hfail a]
    · have step := ih (a + 1) (some (errOf a)) (n + 1)
        (if a < maxR - 1 then ds ++ [delay * pow2u32 a] else ds) (by omega)
      constructor
      · rw [show retryGo tryC maxR delay (r2 + 1 + 1) a last n ds =
            retryGo tryC maxR delay (r2 + 1) (a + 1) (some (errOf a)) (n + 1)
              (if a < maxR - 1 then ds ++ [delay * pow2u32 a] else ds) by
          simp [retryGo, hfail a]]
        rw [step.1]
        omega
      · rw [show retryGo tryC maxR delay (r2 + 1 + 1) a last n ds =
            retryGo tryC maxR delay (r2 + 1) (a + 1) (some (errOf a)) (n + 1)
              (if a < maxR - 1 then ds ++ [delay * pow2u32 a] else ds) by
          simp [retryGo, hfail a],
          show a + (r2 + 1 + 1) - 1 = a + 1 + (r2 + 1) - 1 by omega]
        exact step.2

/-- Running the writer loop of merge when the element at offset `m` is the
first one that fails to parse: the loop fails with the error of that
element, tagged with its absolute index. -/
theorem mergeGo_err (parse : Bytes → Except String Wav) :
    ∀ (l : List Bytes) (m idx : Nat) (acc : List Int) (e : String),
      m < l.length →
      (∀ j, j < m → ∃ w, parse (l.getD j []) = Except.ok w) →
      parse (l.getD m []) = Except.error e →
      mergeGo parse l idx acc =
        Except.error (Error.Audio ("Segment " ++ toString (idx + m) ++ " invalid WAV: " ++ e)) := by
  intro l
  induction l with
  | nil => intro m idx acc e hm; simp at hm
  | cons seg rest ih =>
    intro m idx acc e hm hok hbad
    rcases m with _ | m2
    · have hseg : parse seg = Except.error e := by simpa using hbad
      simp [mergeGo, write_segment, hseg]
    · obtain ⟨w0, h0⟩ := hok 0 (by omega)
      have hseg : parse seg = Except.ok w0 := by simpa using h0
      have tail := ih m2 (idx + 1) (acc ++ w0.samples) e (by simpa using hm)
        (fun j hj => by
          obtain ⟨w2, h2⟩ := hok (j + 1) (by omega)
          exact ⟨w2, by simpa using h2⟩)
        (by simpa using hbad)
      rw [show mergeGo parse (seg :: rest) idx acc =
          mergeGo parse rest (idx + 1) (acc ++ w0.samples) by
        simp [mergeGo, write_segment, hseg],
        show idx + (m2 + 1) = idx + 1 + m2 by omega]
      exact tail

/-- Success case of text_to_audio_with_retry, with the delays in wrapped
u32 form. -/
theorem retry_ok (tryC : Nat → Except Error Bytes) (maxR delay k : Nat) (b : Bytes)
    (hk : k < maxR)
    (hfail : ∀ j, j < k → ∃ e, tryC j = Except.error e)
    (hsucc : tryC k = Except.ok b) :
    text_to_audio_with_retry tryC maxR delay =
      ⟨Except.ok b, k + 1, (List.range' 0 k).map (fun i => delay * pow2u32 i)⟩ := by
  have h := retryGo_ok tryC maxR delay k maxR 0 none 0 [] b hk (by omega)
    (fun j hj => by simpa using hfail j hj) (by simpa using hsucc)
  unfold text_to_audio_with_retry
  rw [h]
  simp

/-- Success case of the inline parallel-unit retry loop. -/
theorem par_unit_ok (synth : Nat → Except Error Bytes) (maxR delay k : Nat) (b : Bytes)
    (hk : k < maxR)
    (hfail : ∀ j, j < k → ∃ e, synth j = Except.error e)
    (hsucc : synth k = Except.ok b) :
    parallel_unit synth maxR delay =
      ⟨Except.ok b, k + 1, (List.range' 0 k).map (fun i => delay * pow2u32 i)⟩ := by
  have h := parUnitGo_ok synth maxR delay k maxR 0 none 0 [] b hk (by omega)
    (fun j hj => by simpa using hfail j hj) (by simpa using hsucc)
  unfold parallel_unit
  rw [h]
  simp

/-- Backoff exponents below 32 give the exact exponential delays. -/
theorem delays_exact (delay k : Nat) (hk : k ≤ 32) :
    (List.range' 0 k).map (fun i => delay * pow2u32 i)
      = (List.range k).map (fun a => delay * 2 ^ a) := by
  rw [← List.range_eq_range']
  refine List.map_congr_left ?_
  intro i hi
  rw [pow2u32_eq i (by have := List.mem_range.mp hi; omega)]

/-- C1: the claim asserts that collect_audio_parallel returns the audio
buffers in original segment order regardless of completion order.  The
code pipes the unit results through buffer_unordered and collects them in
completion order with no reordering step: under the feasible completion
order [1, 0] of a 2-unit pool of width 2, the two (distinct, immediately
successful) audio payloads come back swapped, while the input-order
completion [0, 1] returns them in order.  The output therefore depends on
the completion order and the i-th element is not the audio of the i-th
segment. -/
theorem C1_parallel_completion_order :
    feasibleCompletion 2 2 [1, 0]
    ∧ (collect_audio_parallel c1Synth 3 100 ["a", "b"] [1, 0]).1 = Except.ok [[20], [10]]
    ∧ (collect_audio_parallel c1Synth 3 100 ["a", "b"] [0, 1]).1 = Except.ok [[10], [20]]
    ∧ (parallel_unit (c1Synth "a") 3 100).result = Except.ok [10]
    ∧ (parallel_unit (c1Synth "b") 3 100).result = Except.ok [20]
    ∧ ([[20], [10]] : List Bytes) ≠ [[10], [20]] := by
  refine ⟨⟨rfl, by decide, by decide, by decide⟩, rfl, rfl, rfl, rfl, by decide⟩

/-- C2 counterexample: the claim asserts the delay after failed attempt
`attempt` is retry_delay * 2 ^ attempt for every k < max_retries.  The
code computes the factor as `2_u32.pow(attempt)`, which wraps at attempt
32: with a stub failing 33 times before succeeding (max_retries = 34,
retry_delay = 1), the 33rd backoff performed is 1 * (2 ^ 32 mod 2 ^ 32)
= 0, not the claimed 2 ^ 32. -/
theorem C2_overflow_counterexample :
    (∀ j, j < 33 → c2OverflowStub j = Except.error (Error.TtsApi "boom"))
    ∧ c2OverflowStub 33 = Except.ok [7]
    ∧ (33 : Nat) < 34
    ∧ (text_to_audio_with_retry c2OverflowStub 34 1).delays.getD 32 0 = 0
    ∧ ((List.range 33).map (fun a => 1 * 2 ^ a)).getD 32 0 = 2 ^ 32
    ∧ (0 : Nat) ≠ 2 ^ 32 := by
  refine ⟨fun j hj => ?_, rfl, by omega, by decide, by decide, by decide⟩
  simp [c2OverflowStub, hj]

/-- C2 (amended with k at most 32, so that no backoff exponent wraps the
u32 power): if the synthesis fails on attempts 0..k-1 and succeeds on
attempt k with k < max_retries, then both the retry wrapper and the
inline loop of the parallel path return that success after exactly k + 1
attempts, having performed exactly k backoff delays, the delay after
failed attempt a being retry_delay * 2 ^ a. -/
theorem C2_retry_backoff (tryC : Nat → Except Error Bytes) (maxR delay k : Nat) (b : Bytes)
    (hk : k < maxR) (hk32 : k ≤ 32)
    (hfail : ∀ j, j < k → ∃ e, tryC j = Except.error e)
    (hsucc : tryC k = Except.ok b) :
    text_to_audio_with_retry tryC maxR delay
      = ⟨Except.ok b, k + 1, (List.range k).map (fun a => delay * 2 ^ a)⟩
    ∧ parallel_unit tryC maxR delay
      = ⟨Except.ok b, k + 1, (List.range k).map (fun a => delay * 2 ^ a)⟩ := by
  rw [retry_ok tryC maxR delay k b hk hfail hsucc,
    par_unit_ok tryC maxR delay k b hk hfail hsucc, delays_exact delay k hk32]
  exact ⟨rfl, rfl⟩

/-- C2 witness: the stub failing twice then succeeding, with max_retries
3 and retry_delay 100, succeeds on its third attempt with backoff delays
100 and 200. -/
theorem C2_retry_backoff_witness :
    ((2 : Nat) < 3 ∧ (2 : Nat) ≤ 32
      ∧ (∀ j, j < 2 → ∃ e, c2Stub j = Except.error e)
      ∧ c2Stub 2 = Except.ok [7])
    ∧ text_to_audio_with_retry c2Stub 3 100
        = ⟨Except.ok [7], 2 + 1, (List.range 2).map (fun a => 100 * 2 ^ a)⟩
    ∧ parallel_unit c2Stub 3 100
        = ⟨Except.ok [7], 2 + 1, (List.range 2).map (fun a => 100 * 2 ^ a)⟩ := by
  have hfail : ∀ j, j < 2 → ∃ e, c2Stub j = Except.error e := by
    intro j hj
    exact ⟨Error.TtsApi "boom", by interval_cases j <;> rfl⟩
  have h := C2_retry_backoff c2Stub 3 100 2 [7] (by omega) (by omega) hfail rfl
  exact ⟨⟨by omega, by omega, hfail, rfl⟩, h.1, h.2⟩

/-- C3 counterexample: the claim asserts that when parsing yields zero
non-empty pieces the returned single segment equals the trimmed raw
response.  On the all-whitespace response " " the code returns the raw
response itself, [" "], whose element differs from the trimmed raw
response "". -/
theorem C3_counterexample :
    parse_segments " " = Except.ok [" "]
    ∧ rustTrim " " = ""
    ∧ (" " : String) ≠ "" :=
  ⟨rfl, rfl, by decide⟩

/-- C3 (amended: the zero-piece fallback returns the raw response itself,
not its trimmed form): parse_segments splits on the delimiter, trims each
piece and discards empty pieces; "A|||B|||C" parses to exactly
["A", "B", "C"]; when no non-empty piece remains it falls back to the
single untrimmed raw response; and it never returns an error. -/
theorem C3_parse_segments :
    parse_segments "A|||B|||C" = Except.ok ["A", "B", "C"]
    ∧ (∀ raw, parse_segments raw =
        Except.ok (if (specSplitTrimFilter raw).isEmpty then [raw]
          else specSplitTrimFilter raw))
    ∧ ∀ raw, ∃ segs, parse_segments raw = Except.ok segs := by
  have hmain : ∀ raw, parse_segments raw =
      Except.ok (if (specSplitTrimFilter raw).isEmpty then [raw]
        else specSplitTrimFilter raw) := by
    intro raw
    by_cases h : (specSplitTrimFilter raw).isEmpty
    · simp only [parse_segments, SEGMENT_DELIMITER, specSplitTrimFilter] at h ⊢
      rw [if_pos h, if_pos h]
    · simp only [parse_segments, SEGMENT_DELIMITER, specSplitTrimFilter] at h ⊢
      rw [if_neg h, if_neg h]
  exact ⟨rfl, hmain, fun raw => ⟨_, hmain raw⟩⟩

/-- C4 counterexample: the claim asserts that for every configured
max_retries an always-failing synthesis ends with the last error observed
from the synthesis function.  With max_retries = 0 no attempt is made and
the code fabricates TtsApi "Unknown error", an error the synthesis
function never produced. -/
theorem C4_counterexample :
    (∀ i, c2Stub i ≠ Except.error (Error.TtsApi "Unknown error"))
    ∧ (text_to_audio_with_retry (fun _ => Except.error (Error.TtsApi "boom")) 0 1).result
        = Except.error (Error.TtsApi "Unknown error")
    ∧ (text_to_audio_with_retry (fun _ => Except.error (Error.TtsApi "boom")) 0 1).attempts = 0
    ∧ Error.TtsApi "Unknown error" ≠ Error.TtsApi "boom" := by
  refine ⟨fun i => ?_, rfl, rfl, by decide⟩
  by_cases h : i < 2 <;> simp [c2Stub, h]

/-- C4 (amended with max_retries at least 1): if every synthesis attempt
fails, the retry wrapper performs exactly max_retries attempts and
returns the error of the last attempt verbatim, and convert (direct path)
surfaces exactly that error having made exactly max_retries synthesis
calls and no chat call. -/
theorem C4_exhausted_retries (env : Env) (cfg : Text2Audio) (order : List Nat)
    (text : String) (errOf : Nat → Error)
    (hR : 1 ≤ cfg.max_retries)
    (hfail : ∀ s i, env.synth s i = Except.error (errOf i))
    (htrim : (rustTrim text).isEmpty = false)
    (hlen : (rustTrim text).length ≤ cfg.max_segment_length) :
    (text_to_audio_with_retry (env.synth (rustTrim text)) cfg.max_retries
        cfg.retry_delay).attempts = cfg.max_retries
    ∧ (text_to_audio_with_retry (env.synth (rustTrim text)) cfg.max_retries
        cfg.retry_delay).result = Except.error (errOf (cfg.max_retries - 1))
    ∧ convert cfg env order text
        = ⟨Except.error (errOf (cfg.max_retries - 1)), 0, cfg.max_retries⟩ := by
  have h := retryGo_err (env.synth (rustTrim text)) cfg.max_retries cfg.retry_delay errOf
      (fun i => hfail (rustTrim text) i) cfg.max_retries 0 none 0 [] hR
  have h1 : (text_to_audio_with_retry (env.synth (rustTrim text)) cfg.max_retries
      cfg.retry_delay).attempts = cfg.max_retries := by
    unfold text_to_audio_with_retry
    rw [h.1]
    omega
  have h2 : (text_to_audio_with_retry (env.synth (rustTrim text)) cfg.max_retries
      cfg.retry_delay).result = Except.error (errOf (cfg.max_retries - 1)) := by
    unfold text_to_audio_with_retry
    rw [h.2]
    congr 2
    omega
  refine ⟨h1, h2, ?_⟩
  rcases hEq : text_to_audio_with_retry (env.synth (rustTrim text)) cfg.max_retries
      cfg.retry_delay with ⟨res, nn, ds⟩
  rw [hEq] at h1 h2
  simp only at h1 h2
  simp [convert, htrim, hlen, convert_direct, hEq, h1, h2]

/-- C4 witness: with the default configuration (max_retries 3) and a
synthesis that always fails with TtsApi "boom", convert of the short text
"hi" fails with exactly that error after 3 synthesis calls. -/
theorem C4_exhausted_retries_witness :
    (1 ≤ (Text2Audio.new "k").max_retries
      ∧ (∀ s i, c4Env.synth s i = Except.error (Error.TtsApi "boom"))
      ∧ (rustTrim "hi").isEmpty = false
      ∧ (rustTrim "hi").length ≤ (Text2Audio.new "k").max_segment_length)
    ∧ convert (Text2Audio.new "k") c4Env [] "hi"
        = ⟨Except.error (Error.TtsApi "boom"), 0, 3⟩ := by
  have h := C4_exhausted_retries c4Env (Text2Audio.new "k") [] "hi"
      (fun _ => Error.TtsApi "boom") (by decide) (fun s i => rfl) rfl (by decide)
  exact ⟨⟨by decide, fun s i => rfl, rfl, by decide⟩, h.2.2⟩

/-- C10: with max_retries = 0 the retry wrapper performs zero synthesis
attempts and zero backoff delays and returns TtsApi "Unknown error", and
convert on a short text with such a configuration fails the same way with
zero chat and zero synthesis calls. -/
theorem C10_zero_retries :
    (∀ (tryC : Nat → Except Error Bytes) (delay : Nat),
        text_to_audio_with_retry tryC 0 delay
          = ⟨Except.error (Error.TtsApi "Unknown error"), 0, []⟩)
    ∧ ∀ (env : Env),
        convert ((Text2Audio.new "k").with_retry_config 0 1) env [] "hi"
          = ⟨Except.error (Error.TtsApi "Unknown error"), 0, 0⟩ :=
  ⟨fun _ _ => rfl, fun _ => rfl⟩

/-- C5 counterexample: the claim asserts the stored value is within its
declared range for every f32 input.  Rust f32::clamp returns NaN when the
input is NaN, so with_speed NaN (and with_volume NaN) stores NaN, which is
in no range. -/
theorem C5_counterexample :
    ((Text2Audio.new "k").with_speed F32.nan).speed = F32.nan
    ∧ ¬ speedInRange F32.nan
    ∧ ((Text2Audio.new "k").with_volume F32.nan).volume = F32.nan
    ∧ ¬ volumeInRange F32.nan := by
  refine ⟨rfl, ?_, rfl, ?_⟩
  · rintro ⟨q, hq, -, -⟩
    exact F32.noConfusion hq
  · rintro ⟨q, hq, -, -⟩
    exact F32.noConfusion hq

/-- Clamping a finite float between finite bounds is the rational clamp. -/
theorem F32.clamp_finite (q lo hi : ℚ) :
    F32.clamp (F32.finite q) (F32.finite lo) (F32.finite hi)
      = F32.finite (if q < lo then lo else if hi < q then hi else q) := by
  simp only [F32.clamp, F32.lt]
  by_cases h1 : q < lo
  · simp [h1]
  · by_cases h2 : hi < q
    · simp [h1, h2]
    · simp [h1, h2]

/-- C5 (amended: for every non-NaN float input; NaN is passed through by
f32::clamp): after each numeric setter the stored value is within its
declared range — speed in 0.5..2.0, volume in 0.0..10.0,
max_segment_length in 100..1024, max_parallel in 1..10 — and the setters
are total (they clamp rather than fail). -/
theorem C5_setters_clamp (c : Text2Audio) (s v : F32) (n p : Nat)
    (hs : s ≠ F32.nan) (hv : v ≠ F32.nan) :
    speedInRange (c.with_speed s).speed
    ∧ volumeInRange (c.with_volume v).volume
    ∧ 100 ≤ (c.with_max_segment_length n).max_segment_length
    ∧ (c.with_max_segment_length n).max_segment_length ≤ 1024
    ∧ 1 ≤ (c.with_parallel p).max_parallel
    ∧ (c.with_parallel p).max_parallel ≤ 10 := by
  refine ⟨?_, ?_, ?_, ?_, ?_, ?_⟩
  · rcases s with _ | _ | _ | q
    · exact absurd rfl hs
    · exact ⟨1/2, rfl, le_refl _, by norm_num⟩
    · exact ⟨2, rfl, by norm_num, le_refl _⟩
    · show speedInRange (F32.clamp (F32.finite q) (F32.finite (1/2)) (F32.finite 2))
      rw [F32.clamp_finite]
      refine ⟨_, rfl, ?_, ?_⟩ <;> split_ifs with h1 h2 <;> linarith
  · rcases v with _ | _ | _ | q
    · exact absurd rfl hv
    · exact ⟨0, rfl, le_refl _, by norm_num⟩
    · exact ⟨10, rfl, by norm_num, le_refl _⟩
    · show volumeInRange (F32.clamp (F32.finite q) (F32.finite 0) (F32.finite 10))
      rw [F32.clamp_finite]
      refine ⟨_, rfl, ?_, ?_⟩ <;> split_ifs with h1 h2 <;> linarith
  · show 100 ≤ natClamp n 100 1024
    simp only [natClamp]
    split <;> [omega; split <;> omega]
  · show natClamp n 100 1024 ≤ 1024
    simp only [natClamp]
    split <;> [omega; split <;> omega]
  · show 1 ≤ natClamp p 1 10
    simp only [natClamp]
    split <;> [omega; split <;> omega]
  · show natClamp p 1 10 ≤ 10
    simp only [natClamp]
    split <;> [omega; split <;> omega]

/-- C5 witness: clamping positive infinity speed, negative infinity
volume, segment length 50 and parallelism 0 all land in range. -/
theorem C5_setters_clamp_witness :
    (F32.posInf ≠ F32.nan ∧ F32.negInf ≠ F32.nan)
    ∧ speedInRange ((Text2Audio.new "k").with_speed F32.posInf).speed
    ∧ volumeInRange ((Text2Audio.new "k").with_volume F32.negInf).volume
    ∧ 100 ≤ ((Text2Audio.new "k").with_max_segment_length 50).max_segment_length
    ∧ ((Text2Audio.new "k").with_parallel 0).max_parallel ≤ 10 := by
  have h := C5_setters_clamp (Text2Audio.new "k") F32.posInf F32.negInf 50 0
    (by decide) (by decide)
  exact ⟨⟨by decide, by decide⟩, h.1, h.2.1, h.2.2.1, h.2.2.2.2.2⟩

/-- C6 counterexample: the claim asserts that for every first failing
index i the merge error identifies index i.  When the first buffer itself
is unparseable (i = 0) the failure comes from extract_wav_spec, whose
message "Invalid WAV format: ..." names no index at all (it does not even
contain the character 0). -/
theorem C6_counterexample :
    c6Parse [9] = Except.error "flat"
    ∧ merge c6Parse [[9], [1]] = Except.error (Error.Audio "Invalid WAV format: flat")
    ∧ ¬ List.IsInfix "0".data "Invalid WAV format: flat".data :=
  ⟨rfl, rfl, by decide⟩

/-- C6 (amended: for every first failing index i at least 1; a failure at
index 0 is reported without an index): if the buffers before position i
parse and the buffer at position i is the first that fails to parse, merge
fails with the AudioError "Segment i invalid WAV: ..." identifying index
i, and merge of an empty sequence fails with an AudioError. -/
theorem C6_merge_error_index (parse : Bytes → Except String Wav)
    (segments : List Bytes) (i : Nat) (e : String)
    (hi : 1 ≤ i) (hlen : i < segments.length)
    (hok : ∀ j, j < i → ∃ w, parse (segments.getD j []) = Except.ok w)
    (hbad : parse (segments.getD i []) = Except.error e) :
    merge parse segments =
      Except.error (Error.Audio ("Segment " ++ toString i ++ " invalid WAV: " ++ e))
    ∧ merge parse [] = Except.error (Error.Audio "No audio segments to merge") := by
  refine ⟨?_, rfl⟩
  obtain ⟨w0, h0⟩ := hok 0 (by omega)
  rcases segments with _ | ⟨s, rest⟩
  · simp at hlen
  · have h0s : parse s = Except.ok w0 := by simpa using h0
    have hm := mergeGo_err parse (s :: rest) i 0 [] e hlen hok hbad
    rw [Nat.zero_add] at hm
    simp [merge, extract_wav_spec, h0s, hm]

/-- C6 witness: merging a valid buffer followed by a corrupt buffer fails
with the AudioError identifying index 1. -/
theorem C6_merge_error_index_witness :
    ((1 : Nat) ≤ 1 ∧ 1 < ([[1], [9]] : List Bytes).length
      ∧ (∀ j, j < 1 → ∃ w, c6Parse (([[1], [9]] : List Bytes).getD j []) = Except.ok w)
      ∧ c6Parse (([[1], [9]] : List Bytes).getD 1 []) = Except.error "flat")
    ∧ merge c6Parse [[1], [9]]
        = Except.error (Error.Audio ("Segment " ++ toString 1 ++ " invalid WAV: " ++ "flat")) := by
  have hok : ∀ j, j < 1 → ∃ w, c6Parse (([[1], [9]] : List Bytes).getD j []) = Except.ok w := by
    intro j hj
    interval_cases j
    exact ⟨⟨⟨1, 44100, 16⟩, [3]⟩, rfl⟩
  have h := C6_merge_error_index c6Parse [[1], [9]] 1 "flat" (by omega) (by decide) hok rfl
  exact ⟨⟨by omega, by decide, hok, rfl⟩, h.1⟩

/-- C7: on input whose trimmed form is empty, convert fails with
EmptyInput having performed zero chat-completion calls and zero synthesis
calls. -/
theorem C7_empty_input (cfg : Text2Audio) (env : Env) (order : List Nat) (text : String)
    (h : (rustTrim text).isEmpty = true) :
    convert cfg env order text = ⟨Except.error Error.EmptyInput, 0, 0⟩ := by
  simp [convert, h]

/-- C7 witness: the whitespace-only input "  " trims to empty and convert
rejects it with EmptyInput and no calls. -/
theorem C7_empty_input_witness :
    (rustTrim "  ").isEmpty = true
    ∧ convert (Text2Audio.new "k") c7Env [] "  " = ⟨Except.error Error.EmptyInput, 0, 0⟩ :=
  ⟨rfl, C7_empty_input (Text2Audio.new "k") c7Env [] "  " rfl⟩

/-- C8: the claim asserts every chat-completion request carries exactly
one system message (the fixed instruction) plus the prompt as a user
message.  In the thinking path (here GLM4_7 with thinking enabled) the
code adds the prompt via TextMessage::system: the request carries two
system messages and no user message, unlike the non-thinking path. -/
theorem C8_thinking_prompt_sent_as_system :
    (chat_completion_request ⟨"k", Model.GLM4_7, true, false⟩ "hello").messages
      = [TextMessage.system SPLIT_SYSTEM_PROMPT, TextMessage.system "hello"]
    ∧ ((chat_completion_request ⟨"k", Model.GLM4_7, true, false⟩ "hello").messages.filter
        (fun m => decide (m.role = Role.user))).length = 0
    ∧ ((chat_completion_request ⟨"k", Model.GLM4_7, true, false⟩ "hello").messages.filter
        (fun m => decide (m.role = Role.system))).length = 2
    ∧ (chat_completion_request ⟨"k", Model.GLM4_7, true, false⟩ "hello").messages
        ≠ [TextMessage.system SPLIT_SYSTEM_PROMPT, TextMessage.user "hello"]
    ∧ (chat_completion_request ⟨"k", Model.GLM4_7, false, false⟩ "hello").messages
        = [TextMessage.system SPLIT_SYSTEM_PROMPT, TextMessage.user "hello"] :=
  ⟨rfl, rfl, rfl, by decide, rfl⟩

/-- C9: for GLM4_5Flash and GLM4_5Air the chat-completion dispatch never
takes the thinking branch: the request built with thinking enabled is
identical to the one built with thinking disabled, and in particular no
thinking augmentation is set. -/
theorem C9_flash_air_thinking_ignored (key prompt : String) (cp : Bool) :
    chat_completion_request ⟨key, Model.GLM4_5Flash, true, cp⟩ prompt
      = chat_completion_request ⟨key, Model.GLM4_5Flash, false, cp⟩ prompt
    ∧ chat_completion_request ⟨key, Model.GLM4_5Air, true, cp⟩ prompt
      = chat_completion_request ⟨key, Model.GLM4_5Air, false, cp⟩ prompt
    ∧ (chat_completion_request ⟨key, Model.GLM4_5Flash, true, cp⟩ prompt).thinking_enabled
        = false
    ∧ (chat_completion_request ⟨key, Model.GLM4_5Air, true, cp⟩ prompt).thinking_enabled
        = false :=
  ⟨rfl, rfl, rfl, rfl⟩
